import Mathlib

/-!
Verification of the MODS model lifecycle pipeline (`mods/models/mods_model.py`,
`mods/config.py`) against its specification.

Frames ("TimeSeriesFrame") are shallowly embedded as lists of rows; a cell is
`Option ℚ` where `none` stands for a missing value (numpy / pandas `NaN`).
The keras predictor and the evaluation network are opaque external
collaborators and enter as function parameters.  Exceptions are modelled with
`Except Err`.
-/

namespace MODS

/-- Error taxonomy of the pipeline.  `dimensionMismatch` is the failure of the
sklearn scaler broadcast when a row's width disagrees with the fitted width,
`insufficientData` is the windowing engine failing to emit any window,
`scalerNotFitted` is sklearn's transform on a never-fitted scaler,
`keyError` is Python's missing-dict-key error (`multivariate` unset),
and the `missing*` variants are fatal artifact-member failures on load. -/
inductive Err where
  | dimensionMismatch
  | insufficientData
  | scalerNotFitted
  | keyError
  | missingConfig
  | missingModel
  | missingScaler
  deriving DecidableEq

/-- A cell of a frame: `some q` is a numeric value, `none` is NaN. -/
abbrev Cell := Option ℚ

/-- A row of a frame. -/
abbrev Row := List Cell

/-- A frame / 2-D matrix: a list of rows in time order. -/
abbrev OMat := List Row

/-- NaN-propagating addition (numpy semantics). -/
def oAdd : Cell → Cell → Cell
  | some a, some b => some (a + b)
  | _, _ => none

/-- NaN-propagating subtraction (numpy semantics). -/
def oSub : Cell → Cell → Cell
  | some a, some b => some (a - b)
  | _, _ => none

/-- Elementwise row addition (numpy `+` on aligned rows). -/
def addRow (a b : Row) : Row := List.zipWith oAdd a b

/-- Elementwise row subtraction (numpy `-` on aligned rows). -/
def subRow (a b : Row) : Row := List.zipWith oSub a b

/-- Elementwise matrix addition (numpy `+` on aligned matrices). -/
def addMat (a b : OMat) : OMat := List.zipWith addRow a b

/-- `mods_model.delta` (mods_model.py:654-659): first-order difference,
`df[1:] - df[:-1]`; row `i` of the result is `df[i+1] - df[i]`. -/
def delta (m : OMat) : OMat := List.zipWith subRow (m.drop 1) m.dropLast

/-- The shape of a frame: the list of its row widths (its length is the row
count). -/
def shape (m : List (List α)) : List Nat := m.map List.length

/-- All rows of the frame have width `w`. -/
def rectW (w : Nat) (m : OMat) : Prop := ∀ r ∈ m, r.length = w

/-- Every cell of the frame is a numeric value (no NaN). -/
def validM (m : OMat) : Prop := ∀ r ∈ m, ∀ x ∈ r, x.isSome

instance (w : Nat) (m : OMat) : Decidable (rectW w m) := by
  unfold rectW; infer_instance

instance (m : OMat) : Decidable (validM m) := by
  unfold validM; infer_instance

/-- Model configuration (`mods_model.__default_config`'s `model` section plus
the `scaler`/`sample_data` bookkeeping the claims need).  `multivariate` is
`Option` because the key is absent from a fresh configuration and only set by
training (`set_multivariate`); `sample_data` records whether the optional
`sample_data` section is present. -/
structure Config where
  sequence_len : Nat
  model_delta : Bool
  interpolate : Bool
  model_type : String
  epochs : Nat
  epochs_patience : Nat
  blocks : Nat
  stacked_blocks : Nat
  steps_ahead : Nat
  batch_size : Nat
  batch_normalization : Bool
  dropout_rate : ℚ
  multivariate : Option Nat
  sample_data : Bool
  deriving DecidableEq

/-- `cfg.sequence_len` (config.py:92). -/
def cfg_sequence_len : Nat := 6

/-- `cfg.model_delta` (config.py:86). -/
def cfg_model_delta : Bool := true

/-- `cfg.interpolate` (config.py:87). -/
def cfg_interpolate : Bool := true

/-- `cfg.model_type` (config.py:94-96): first element of `model_types`. -/
def cfg_model_type : String := "CuDNNLSTM"

/-- `cfg.num_epochs` (config.py:97). -/
def cfg_num_epochs : Nat := 50

/-- `cfg.epochs_patience` (config.py:98). -/
def cfg_epochs_patience : Nat := 10

/-- `cfg.blocks` (config.py:101). -/
def cfg_blocks : Nat := 6

/-- `cfg.steps_ahead` (config.py:93). -/
def cfg_steps_ahead : Nat := 1

/-- `cfg.batch_size` (config.py:99). -/
def cfg_batch_size : Nat := 1

/-- `cfg.batch_size_test` (config.py:100), used by `mods_model.eval`. -/
def cfg_batch_size_test : Nat := 1

/-- `mods_model.__default_config` (mods_model.py:285-305).  `mods.config` has
no attributes `stacked_blocks`, `batch_normalization` or `dropout_rate`
(config.py:90-101), so those three fields carry placeholder values here; no
theorem relies on them.  `multivariate` is absent from a fresh configuration. -/
def defaultConfig : Config where
  sequence_len := cfg_sequence_len
  model_delta := cfg_model_delta
  interpolate := cfg_interpolate
  model_type := cfg_model_type
  epochs := cfg_num_epochs
  epochs_patience := cfg_epochs_patience
  blocks := cfg_blocks
  stacked_blocks := 0
  steps_ahead := cfg_steps_ahead
  batch_size := cfg_batch_size
  batch_normalization := false
  dropout_rate := 0
  multivariate := none
  sample_data := false

/-- `mods_model.transform` (mods_model.py:661-666): first-order difference
when the delta flag is set, identity otherwise. -/
def transform (cfg : Config) (m : OMat) : OMat :=
  if cfg.model_delta then delta m else m

/-- `mods_model.inverse_transform` (mods_model.py:668-677): when delta mode is
on, adds the predictions to `original[sequence_len:]`; otherwise returns the
predictions unchanged. -/
def inverse_transform (cfg : Config) (original pred_denorm : OMat) : OMat :=
  if cfg.model_delta then addMat (original.drop cfg.sequence_len) pred_denorm
  else pred_denorm

/-- Scaler state of sklearn's `MinMaxScaler(feature_range=(0, 1))`: the
per-feature data minimum and maximum recorded by `fit`.  A parameter is
`none` when the corresponding column held no numeric value (NaN statistics). -/
structure Scaler where
  data_min : List Cell
  data_max : List Cell
  deriving DecidableEq

/-- The number of features the scaler was fitted on. -/
def Scaler.width (sc : Scaler) : Nat := sc.data_min.length

/-- sklearn's `_handle_zeros_in_scale`: a zero range scales by 1. -/
def handleZeros (r : ℚ) : ℚ := if r = 0 then 1 else r

/-- Per-feature `scale_` of the MinMaxScaler:
`(1 - 0) / handle_zeros(data_max - data_min)`. -/
def oScale : Cell → Cell → Cell
  | some mn, some mx => some (1 / handleZeros (mx - mn))
  | _, _ => none

/-- Per-feature `min_` of the MinMaxScaler: `0 - data_min * scale_`. -/
def oMinAdj : Cell → Cell → Cell
  | some mn, some s => some (0 - mn * s)
  | _, _ => none

/-- The fitted `scale_` vector. -/
def Scaler.scale (sc : Scaler) : Row := List.zipWith oScale sc.data_min sc.data_max

/-- The fitted `min_` vector. -/
def Scaler.minAdj (sc : Scaler) : Row := List.zipWith oMinAdj sc.data_min sc.scale

/-- One cell of `MinMaxScaler.transform`: `x * scale_ + min_`,
NaN-propagating. -/
def trEntry (x : Cell) (p : Cell × Cell) : Cell :=
  match x, p.1, p.2 with
  | some v, some s, some m => some (v * s + m)
  | _, _, _ => none

/-- One cell of `MinMaxScaler.inverse_transform`: `(x - min_) / scale_`,
NaN-propagating. -/
def invEntry (x : Cell) (p : Cell × Cell) : Cell :=
  match x, p.1, p.2 with
  | some v, some s, some m => some ((v - m) / s)
  | _, _, _ => none

/-- Apply a per-cell scaler operation to one row; numpy broadcasting of the
parameter vectors fails when the row width disagrees with the fitted width. -/
def rowOp (f : Cell → Cell × Cell → Cell) (sc : Scaler) (r : Row) : Except Err Row :=
  if r.length = sc.width then
    .ok (List.zipWith f r (sc.scale.zip sc.minAdj))
  else .error .dimensionMismatch

/-- Column `j` of a frame. -/
def colOf (m : OMat) (j : Nat) : Row := m.map (fun r => r.getD j none)

/-- NaN-ignoring fold of a column with a binary statistic `f`. -/
def foldOpt (f : ℚ → ℚ → ℚ) (col : Row) : Cell :=
  col.foldl (fun acc x =>
    match acc, x with
    | none, v => v
    | some a, none => some a
    | some a, some v => some (f a v)) none

/-- NaN-ignoring minimum of a column (sklearn fit statistics). -/
def colMin (col : Row) : Cell := foldOpt min col

/-- NaN-ignoring maximum of a column (sklearn fit statistics). -/
def colMax (col : Row) : Cell := foldOpt max col

/-- `MinMaxScaler.fit`: record per-column minima and maxima of the matrix. -/
def Scaler.fitO (m : OMat) : Scaler where
  data_min := (List.range (m.headD []).length).map (fun j => colMin (colOf m j))
  data_max := (List.range (m.headD []).length).map (fun j => colMax (colOf m j))

/-- `MinMaxScaler.transform` over a whole frame.  `none` stands for the
lazily created, never fitted scaler of `mods_model.get_scaler`
(mods_model.py:401-404): using it raises sklearn's not-fitted error. -/
def scalerTransformFrame (sc : Option Scaler) (m : OMat) : Except Err OMat :=
  match sc with
  | none => .error .scalerNotFitted
  | some sc => m.mapM (rowOp trEntry sc)

/-- `mods_model.normalize` (mods_model.py:679-684): `fit_transform` when
`fit` is true, plain `transform` otherwise.  The Python method mutates the
scaler object passed to it; here the (possibly re-fitted) scaler state is
returned alongside the result. -/
def normalize (df : OMat) (sc : Option Scaler) (fitb : Bool) : Except Err (Option Scaler × OMat) :=
  if fitb then do
    let sc2 := Scaler.fitO df
    let out ← scalerTransformFrame (some sc2) df
    pure (some sc2, out)
  else do
    let out ← scalerTransformFrame sc df
    pure (sc, out)

/-- `mods_model.inverse_normalize` (mods_model.py:686-690): the scaler's
stored inverse affine mapping. -/
def inverse_normalize (sc : Option Scaler) (m : OMat) : Except Err OMat :=
  match sc with
  | none => .error .scalerNotFitted
  | some sc => m.mapM (rowOp invEntry sc)

/-- A window: the conditioning input rows paired with the target row. -/
abbrev Sample := OMat × Row

/-- Modelled from the spec: keras `TimeseriesGenerator` is an external
library whose code is not in this repository.  Per the spec's windowing
contract it is a deterministic stride-1, sampling-rate-1 generator: sample
`i` pairs the input rows `x[i : i+len]` with the target row `y[i+len]`, in
strict time order; it fails (`InsufficientDataError`) when no window can be
produced.  Batching only groups the emitted windows and is irrelevant to the
claims, so the flat list of windows is returned. -/
def tsgSamples (x y : OMat) (len : Nat) : Except Err (List Sample) :=
  if len < x.length then
    .ok ((List.range (x.length - len)).map
      (fun i => ((x.drop i).take len, y.getD (i + len) [])))
  else .error .insufficientData

/-- `mods_model.get_tsg` (mods_model.py:693-711): when `steps_ahead > 1` the
input stream is `df[:-(steps_ahead-1)]` and the target stream is
`df[steps_ahead-1:]`, otherwise both are `df`; `length` is the configured
`sequence_len`.  `batch_size` only sizes the generator's batches and does not
affect the emitted windows. -/
def get_tsg (cfg : Config) (df : OMat) (steps_ahead : Nat) (batch_size : Nat) : Except Err (List Sample) :=
  let x := if steps_ahead > 1 then df.take (df.length - (steps_ahead - 1)) else df
  let y := if steps_ahead > 1 then df.drop (steps_ahead - 1) else df
  tsgSamples x y cfg.sequence_len

/-- Index and value of the last numeric cell of the column strictly before
index `i`, if any. -/
def lastValidBefore (col : Row) (i : Nat) : Option (Nat × ℚ) :=
  ((List.range i).reverse).findSome? (fun j => (col.getD j none).map (fun v => (j, v)))

/-- Index and value of the first numeric cell of the column at index `i` or
later, if any. -/
def firstValidFrom (col : Row) (i : Nat) : Option (Nat × ℚ) :=
  ((List.range col.length).drop i).findSome? (fun j => (col.getD j none).map (fun v => (j, v)))

/-- Modelled from the spec: pandas `DataFrame.interpolate()` (external
library, default linear method, forward direction) — "fills remaining gaps by
linear interpolation in time order".  A numeric cell is kept; a NaN between
two numeric cells `(j, a)` and `(k, b)` becomes `a + (b-a)·(i-j)/(k-j)`; a
NaN after the last numeric cell is filled forward with that value; a NaN
before the first numeric cell stays NaN. -/
def interpEntry (col : Row) (i : Nat) : Cell :=
  match col.getD i none with
  | some v => some v
  | none =>
    match lastValidBefore col i, firstValidFrom col (i + 1) with
    | some (j, a), some (k, b) =>
        some (a + (b - a) * (((i : ℚ) - (j : ℚ)) / ((k : ℚ) - (j : ℚ))))
    | some (_, a), none => some a
    | none, _ => none

/-- Columnwise linear interpolation of a frame (pandas `interpolate`). -/
def interpolateFrame (m : OMat) : OMat :=
  (List.range m.length).map (fun i =>
    (List.range (m.getD i []).length).map (fun j => interpEntry (colOf m j) i))

/-- The metrics map: metric name to scalar value. -/
abbrev Metrics := List (String × ℚ)

/-- The mutable state of one `mods_model` instance (mods_model.py:92-99):
its configuration, the opaque serialized keras model (a blob, `none` until
trained or loaded), the scaler (`none` until first use — `get_scaler` then
lazily creates an unfitted one, which `scalerTransformFrame` rejects), the
optional sample-data frame and the metrics map. -/
structure ModelState where
  config : Config
  kerasBlob : Option Nat
  scaler : Option Scaler
  sampleData : Option OMat
  metrics : Metrics
  deriving DecidableEq

/-- `mods_model.__init__` (mods_model.py:92-99): fresh model with the default
configuration, no keras model, no scaler, no sample data and empty metrics. -/
def freshModel : ModelState where
  config := defaultConfig
  kerasBlob := none
  scaler := none
  sampleData := none
  metrics := []

/-- `mods_model.get_multivariate` (mods_model.py:314-315): reading the
`multivariate` key; a Python `KeyError` when it was never set. -/
def getMultivariate (cfg : Config) : Except Err Nat :=
  match cfg.multivariate with
  | some w => .ok w
  | none => .error .keyError

/-- `mods_model.predict` (mods_model.py:714-751).  The keras model is the
opaque external predictor capability: `net` maps one conditioning window to
one output row, and `predict_generator` maps it over the generator's windows.
Steps, in source order: optional interpolation; `transform`;
`normalize(fit=False)`; append `steps_ahead` all-NaN rows of width
`multivariate`; `get_tsg`; the predictor; `inverse_normalize`;
`inverse_transform` against the (interpolated) input frame. -/
def predict (net : OMat → Row) (st : ModelState) (df : OMat) : Except Err OMat := do
  let df1 := if st.config.interpolate then interpolateFrame df else df
  let trans := transform st.config df1
  let p ← normalize trans st.scaler false
  let norm := p.2
  let w ← getMultivariate st.config
  let dummy : Row := List.replicate w none
  let padded := norm ++ List.replicate st.config.steps_ahead dummy
  let tsg ← get_tsg st.config padded st.config.steps_ahead st.config.batch_size
  let pred := tsg.map (fun s => net s.1)
  let predDenorm ← inverse_normalize st.scaler pred
  pure (inverse_transform st.config df1 predDenorm)

/-- The spec's repair stage of `predict`: replace nothing (no sentinel
replacement happens in `predict`) and interpolate when the flag is set. -/
def repairStage (cfg : Config) (df : OMat) : OMat :=
  if cfg.interpolate then interpolateFrame df else df

/-- The spec's padding stage: append `k` all-missing rows of width `w` to the
normalized matrix. -/
def padStage (w k : Nat) (m : OMat) : OMat :=
  m ++ List.replicate k (List.replicate w none)

/-- The prediction pipeline exactly as the spec words it: repair → transform
→ normalize(fit=false) → pad with `steps_ahead` missing rows → windowing →
predictor → inverse_normalize → inverse_transform.  Stated from the spec to
be compared with `predict`, which is stated from the source. -/
def predictSpec (net : OMat → Row) (st : ModelState) (df : OMat) : Except Err OMat :=
  let repaired := repairStage st.config df
  normalize (transform st.config repaired) st.scaler false >>= fun p =>
  getMultivariate st.config >>= fun w =>
  get_tsg st.config (padStage w st.config.steps_ahead p.2) st.config.steps_ahead
      st.config.batch_size >>= fun tsg =>
  inverse_normalize st.scaler (tsg.map (fun s => net s.1)) >>= fun predDenorm =>
  pure (inverse_transform st.config repaired predDenorm)

/-- `mods_model.eval` (mods_model.py:794-809).  `evalNet` is the opaque
`evaluate_generator` capability of the keras model.  Note the `normalize`
call passes no `fit` argument, so the Python default `fit=True` applies; the
scaler object held by the model is thereby re-fitted, which the returned
state makes explicit. -/
def eval (evalNet : List Sample → List ℚ) (st : ModelState) (df : OMat) :
    Except Err (List ℚ × ModelState) := do
  let interpol := if st.config.interpolate then interpolateFrame df else df
  let trans := transform st.config interpol
  let p ← normalize trans st.scaler true
  let tsg ← get_tsg st.config p.2 st.config.steps_ahead cfg_batch_size_test
  pure (evalNet tsg, { st with scaler := p.1 })

/-- The scaler held by the model after a successful `eval` call: `normalize`
with `fit=True` re-fits it to the transformed evaluation frame. -/
def evalScalerAfter (st : ModelState) (df : OMat) : Option Scaler :=
  some (Scaler.fitO (transform st.config
    (if st.config.interpolate then interpolateFrame df else df)))

/-- One artifact archive (`model.zip`): the five members of
`mods_model.save`/`load` (mods_model.py:125-156).  A mandatory member is
`none` when it is absent or unreadable (both are fatal on load).  The
metrics member is `none` when `metrics.json` is absent or malformed — the
two cases `mods_model.__load_metrics` catches and logs. -/
structure ZipFile where
  configMember : Option Config
  modelMember : Option Nat
  scalerMember : Option Scaler
  sampleDataMember : Option OMat
  metricsMember : Option Metrics
  deriving DecidableEq

/-- `mods_model.load` (mods_model.py:142-156) followed by
`mods_model.__init` (mods_model.py:645-649).  Members are read in source
order: config, keras model and scaler are mandatory (`zip.open`/parse
failures propagate); sample data (mods_model.py:242-259) is read only when
the loaded config has a `sample_data` section and failures keep the previous
value; metrics (mods_model.py:179-187) failures keep the previous (empty for
a fresh model) map.  `__init` then runs `predict` on the sample data when
present; `net` maps the opaque blob to the predictor capability. -/
def load (net : Nat → OMat → Row) (zip : ZipFile) (st : ModelState) :
    Except Err ModelState := do
  let cfg ← match zip.configMember with
    | some c => pure c
    | none => Except.error Err.missingConfig
  let blob ← match zip.modelMember with
    | some b => pure b
    | none => Except.error Err.missingModel
  let sc ← match zip.scalerMember with
    | some s => pure s
    | none => Except.error Err.missingScaler
  let sample := if cfg.sample_data then
      match zip.sampleDataMember with
      | some d => some d
      | none => st.sampleData
    else st.sampleData
  let ms := match zip.metricsMember with
    | some m => m
    | none => st.metrics
  let st2 : ModelState :=
    { config := cfg, kerasBlob := some blob, scaler := some sc,
      sampleData := sample, metrics := ms }
  match st2.sampleData with
  | some d => do
    let _ ← predict (net blob) st2 d
    pure st2
  | none => pure st2

/-- The hyperparameter arguments of `mods_model.train` (mods_model.py:418-433)
as they arrive in the function body: `none` is Python `None`.  An argument
the caller omits is filled by Python's default-argument mechanism with the
`mods.config` module constant, i.e. it arrives as `some` of that constant,
not as `none`. -/
structure TrainArgs where
  sequence_len : Option Nat
  model_delta : Option Bool
  interpolate : Option Bool
  model_type : Option String
  num_epochs : Option Nat
  epochs_patience : Option Nat
  blocks : Option Nat
  stacked_blocks : Option Nat
  steps_ahead : Option Nat
  batch_size : Option Nat
  batch_normalization : Option Bool
  dropout_rate : Option ℚ
  deriving DecidableEq

/-- The configuration-merge section of `mods_model.train`
(mods_model.py:434-495): `multivariate` is set to the frame's column count;
then, for each hyperparameter, a `None` argument falls back to the stored
configuration value and any other argument is stored. -/
def trainMergeConfig (a : TrainArgs) (c : Config) (dfWidth : Nat) : Config :=
  { c with
    multivariate := some dfWidth
    sequence_len := match a.sequence_len with | none => c.sequence_len | some v => v
    model_delta := match a.model_delta with | none => c.model_delta | some v => v
    interpolate := match a.interpolate with | none => c.interpolate | some v => v
    model_type := match a.model_type with | none => c.model_type | some v => v
    epochs := match a.num_epochs with | none => c.epochs | some v => v
    epochs_patience := match a.epochs_patience with | none => c.epochs_patience | some v => v
    blocks := match a.blocks with | none => c.blocks | some v => v
    stacked_blocks := match a.stacked_blocks with | none => c.stacked_blocks | some v => v
    steps_ahead := match a.steps_ahead with | none => c.steps_ahead | some v => v
    batch_size := match a.batch_size with | none => c.batch_size | some v => v
    batch_normalization := match a.batch_normalization with | none => c.batch_normalization | some v => v
    dropout_rate := match a.dropout_rate with | none => c.dropout_rate | some v => v }

/-- A raw cell of a training frame as read from the CSV: a number, a NaN, or
the literal string token given for a missing measurement that
`df_train.replace` turns into `0` (mods_model.py:619). -/
inductive Entry where
  | val (q : ℚ)
  | nan
  | sentinel
  deriving DecidableEq

/-- An entry frame: rows of raw cells. -/
abbrev EMat := List (List Entry)

/-- `df_train.replace('None', 0, inplace=True)` (mods_model.py:619): every
sentinel token becomes the number 0; other cells are untouched. -/
def replaceSentinel (m : EMat) : EMat :=
  m.map (List.map (fun e => match e with | .sentinel => .val 0 | e => e))

/-- Numeric view of a raw cell; applied only after `replaceSentinel`, which
eliminates every `sentinel`. -/
def Entry.toOpt : Entry → Cell
  | .val q => some q
  | _ => none

/-- Raw view of a numeric cell. -/
def ofOpt : Cell → Entry
  | some q => .val q
  | none => .nan

/-- The caller's training frame after `mods_model.train` returns.  The repair
stage of `train` operates in place: `df_train.replace('None', 0,
inplace=True)` (mods_model.py:619) and, when the interpolate flag is set,
`df_train.interpolate(inplace=True)` (mods_model.py:622-623) both mutate the
caller's object; every later stage rebinds the local name only.  Explicit
state passing makes that mutation visible as the returned frame. -/
def trainCallerFrameAfter (interpolate : Bool) (df : EMat) : EMat :=
  let r := replaceSentinel df
  if interpolate then
    (interpolateFrame (r.map (List.map Entry.toOpt))).map (List.map ofOpt)
  else r

/-- The caller's frame after `mods_model.predict` returns: `predict` never
operates in place (`df = df.interpolate()` on mods_model.py:719 rebinds the
local name to a fresh frame), so the caller's object is unchanged. -/
def predictCallerFrameAfter (df : OMat) : OMat := df

/-- Demonstration state for the eval/scaler claims: delta and interpolation
off, `sequence_len = 1`, horizon 1, one feature, scaler fitted on a training
frame with column range [0, 1]. -/
def stEvalDemo : ModelState where
  config := { defaultConfig with
    model_delta := false, interpolate := false, sequence_len := 1,
    steps_ahead := 1, batch_size := 1, multivariate := some 1 }
  kerasBlob := some 0
  scaler := some ⟨[some 0], [some 1]⟩
  sampleData := none
  metrics := []

/-! ## Shared lemmas -/

theorem mem_zipWith {α β γ : Type} {f : α → β → γ} {l1 : List α} {l2 : List β} {c : γ}
    (h : c ∈ List.zipWith f l1 l2) : ∃ a b, a ∈ l1 ∧ b ∈ l2 ∧ c = f a b := by
  induction l1 generalizing l2 with
  | nil => simp at h
  | cons x xs ih =>
    cases l2 with
    | nil => simp at h
    | cons y ys =>
      simp only [List.zipWith_cons_cons, List.mem_cons] at h
      rcases h with h | h
      · exact ⟨x, y, by simp, by simp, h⟩
      · obtain ⟨a, b, ha, hb, hc⟩ := ih h
        exact ⟨a, b, by simp [ha], by simp [hb], hc⟩

theorem length_delta (m : OMat) : (delta m).length = m.length - 1 := by
  simp [delta]

theorem rectW_delta (m : OMat) (w : Nat) (hrect : rectW w m) : rectW w (delta m) := by
  intro r hr
  obtain ⟨a, b, ha, hb, hr'⟩ := mem_zipWith hr
  subst hr'
  rw [subRow, List.length_zipWith, hrect a (List.drop_subset _ _ ha),
    hrect b (List.dropLast_subset _ hb), min_self]

theorem length_interpolateFrame (m : OMat) : (interpolateFrame m).length = m.length := by
  simp [interpolateFrame]

theorem rectW_interpolateFrame (m : OMat) (w : Nat) (hrect : rectW w m) :
    rectW w (interpolateFrame m) := by
  intro r hr
  rw [interpolateFrame] at hr
  obtain ⟨i, hi, hr'⟩ := List.mem_map.mp hr
  have him : i < m.length := by
    have := List.mem_range.mp hi
    simpa using this
  have : m.getD i [] = m[i] := List.getD_eq_getElem m [] him
  rw [← hr']
  simp only [List.length_map, List.length_range, this]
  exact hrect _ (List.getElem_mem _)

theorem shape_interpolateFrame (m : OMat) : shape (interpolateFrame m) = shape m := by
  apply List.ext_getElem
  · simp [shape, interpolateFrame]
  · intro i h1 h2
    simp only [shape, interpolateFrame, List.getElem_map, List.getElem_range,
      List.length_map, List.length_range]
    rw [List.getD_eq_getElem m [] (by simpa [shape] using h2)]

theorem shape_map_map {α β : Type} (f : α → β) (m : List (List α)) :
    shape (m.map (List.map f)) = shape m := by
  simp [shape, List.map_map, Function.comp_def]

theorem delta_cons_cons (a b : Row) (t : OMat) :
    delta (a :: b :: t) = subRow b a :: delta (b :: t) := rfl

theorem addRow_subRow (a b : Row) (hlen : a.length = b.length)
    (hva : ∀ x ∈ a, x.isSome) (hvb : ∀ x ∈ b, x.isSome) :
    addRow a (subRow b a) = b := by
  induction a generalizing b with
  | nil =>
    cases b with
    | nil => rfl
    | cons y ys => simp at hlen
  | cons x xs ih =>
    cases b with
    | nil => simp at hlen
    | cons y ys =>
      obtain ⟨xv, hx⟩ := Option.isSome_iff_exists.mp (hva x (by simp))
      obtain ⟨yv, hy⟩ := Option.isSome_iff_exists.mp (hvb y (by simp))
      have htl : addRow xs (subRow ys xs) = ys :=
        ih ys (by simpa using hlen) (fun z hz => hva z (List.mem_cons_of_mem _ hz))
          (fun z hz => hvb z (List.mem_cons_of_mem _ hz))
      simp only [addRow, subRow, List.zipWith_cons_cons] at htl ⊢
      rw [hx, hy]
      simp only [oSub, oAdd, htl]
      norm_num

theorem addMat_dropLast_delta (m : OMat) (w : Nat) (hrect : rectW w m) (hv : validM m) :
    addMat m.dropLast (delta m) = m.drop 1 := by
  induction m with
  | nil => rfl
  | cons a t ih =>
    cases t with
    | nil => rfl
    | cons b t2 =>
      have hhead : addRow a (subRow b a) = b := by
        apply addRow_subRow
        · rw [hrect a (by simp), hrect b (by simp)]
        · exact hv a (by simp)
        · exact hv b (by simp)
      have htail : addMat (b :: t2).dropLast (delta (b :: t2)) = (b :: t2).drop 1 :=
        ih (fun r hr => hrect r (List.mem_cons_of_mem _ hr))
          (fun r hr => hv r (List.mem_cons_of_mem _ hr))
      simp only [delta_cons_cons, List.dropLast_cons₂, addMat, List.zipWith_cons_cons,
        List.drop_succ_cons, List.drop_zero] at htail ⊢
      rw [hhead]
      simpa [addMat] using htail

theorem get_tsg_ok (cfg : Config) (df : OMat) (k bs : Nat) (hk : 1 ≤ k)
    (h : cfg.sequence_len + k ≤ df.length) :
    ∃ ws, get_tsg cfg df k bs = .ok ws ∧
      ws.length = df.length - cfg.sequence_len - k + 1 := by
  unfold get_tsg tsgSamples
  by_cases hk1 : k > 1
  · have hxlen : (df.take (df.length - (k - 1))).length = df.length - (k - 1) := by
      rw [List.length_take]; omega
    rw [if_pos hk1, if_pos hk1, if_pos (by omega : cfg.sequence_len < (df.take (df.length - (k - 1))).length)]
    refine ⟨_, rfl, ?_⟩
    simp only [List.length_map, List.length_range, hxlen]
    omega
  · rw [if_neg hk1, if_neg hk1, if_pos (by omega : cfg.sequence_len < df.length)]
    refine ⟨_, rfl, ?_⟩
    simp only [List.length_map, List.length_range]
    omega

theorem get_tsg_err (cfg : Config) (df : OMat) (k bs : Nat) (hk : 1 ≤ k)
    (h : df.length < cfg.sequence_len + k) :
    get_tsg cfg df k bs = .error .insufficientData := by
  unfold get_tsg tsgSamples
  by_cases hk1 : k > 1
  · have hxlen : (df.take (df.length - (k - 1))).length = df.length - (k - 1) := by
      rw [List.length_take]; omega
    rw [if_pos hk1, if_pos hk1,
      if_neg (by omega : ¬ cfg.sequence_len < (df.take (df.length - (k - 1))).length)]
  · rw [if_neg hk1, if_neg hk1, if_neg (by omega : ¬ cfg.sequence_len < df.length)]

theorem mapM_rowOp_ok (f : Cell → Cell × Cell → Cell) (sc : Scaler) :
    ∀ (m : OMat), (∀ r ∈ m, r.length = sc.width) →
    m.mapM (rowOp f sc) =
      .ok (m.map (fun r => List.zipWith f r (sc.scale.zip sc.minAdj))) := by
  intro m
  induction m with
  | nil => intro _; rfl
  | cons r t ih =>
    intro hw
    rw [List.mapM_cons]
    have hr : rowOp f sc r = .ok (List.zipWith f r (sc.scale.zip sc.minAdj)) := by
      rw [rowOp, if_pos (hw r (by simp))]
    rw [hr, ih (fun r2 h2 => hw r2 (List.mem_cons_of_mem _ h2))]
    rfl

theorem mapM_rowOp_err (f : Cell → Cell × Cell → Cell) (sc : Scaler) (r : Row) (t : OMat)
    (h : r.length ≠ sc.width) :
    (r :: t).mapM (rowOp f sc) = .error .dimensionMismatch := by
  rw [List.mapM_cons]
  have hr : rowOp f sc r = .error .dimensionMismatch := by
    rw [rowOp, if_neg h]
  rw [hr]
  rfl

theorem scaler_ps_length (sc : Scaler) (w : Nat) (h1 : sc.data_min.length = w)
    (h2 : sc.data_max.length = w) : (sc.scale.zip sc.minAdj).length = w := by
  simp [Scaler.scale, Scaler.minAdj, h1, h2]

theorem foldOpt_isSome_of_acc (f : ℚ → ℚ → ℚ) :
    ∀ (col : Row) (acc : Cell), acc.isSome →
    (col.foldl (fun acc x =>
      match acc, x with
      | none, v => v
      | some a, none => some a
      | some a, some v => some (f a v)) acc).isSome := by
  intro col
  induction col with
  | nil => intro acc h; simpa using h
  | cons y t ih =>
    intro acc h
    obtain ⟨a, ha⟩ := Option.isSome_iff_exists.mp h
    subst ha
    rw [List.foldl_cons]
    cases y with
    | none => exact ih (some a) rfl
    | some v => exact ih (some (f a v)) rfl

theorem foldOpt_isSome (f : ℚ → ℚ → ℚ) :
    ∀ (col : Row), (∃ x ∈ col, x.isSome) → (foldOpt f col).isSome := by
  intro col
  induction col with
  | nil => rintro ⟨x, hx, _⟩; simp at hx
  | cons y t ih =>
    rintro ⟨x, hx, hxs⟩
    rw [foldOpt, List.foldl_cons]
    cases y with
    | some v => exact foldOpt_isSome_of_acc f t (some v) rfl
    | none =>
      rcases List.mem_cons.mp hx with h | h
      · subst h; simp at hxs
      · exact ih ⟨x, h, hxs⟩

theorem handleZeros_ne_zero (r : ℚ) : handleZeros r ≠ 0 := by
  rw [handleZeros]
  split
  · norm_num
  · assumption

theorem fitO_data_min_length (m : OMat) :
    (Scaler.fitO m).data_min.length = (m.headD []).length := by
  simp [Scaler.fitO]

theorem fitO_data_max_length (m : OMat) :
    (Scaler.fitO m).data_max.length = (m.headD []).length := by
  simp [Scaler.fitO]

theorem col_has_valid (m : OMat) (r0 : Row) (t : OMat) (w : Nat) (j : Nat)
    (hm : m = r0 :: t) (hrect : rectW w m) (hv : validM m) (hj : j < w) :
    ∃ x ∈ colOf m j, x.isSome := by
  subst hm
  refine ⟨r0.getD j none, by simp [colOf], ?_⟩
  have hlen : r0.length = w := hrect r0 (by simp)
  rw [List.getD_eq_getElem r0 none (by omega)]
  exact hv r0 (by simp) _ (List.getElem_mem _)

theorem fitO_param_isSome (g : ℚ → ℚ → ℚ) (m : OMat) (r0 : Row) (t : OMat) (w : Nat)
    (hm : m = r0 :: t) (hrect : rectW w m) (hv : validM m) :
    ∀ x ∈ (List.range (m.headD []).length).map (fun j => foldOpt g (colOf m j)),
      x.isSome := by
  intro x hx
  obtain ⟨j, hj, hx'⟩ := List.mem_map.mp hx
  have hjw : j < w := by
    have := List.mem_range.mp hj
    have hlen : (m.headD []).length = w := by
      subst hm; exact hrect r0 (by simp)
    omega
  rw [← hx']
  exact foldOpt_isSome g _ (col_has_valid m r0 t w j hm hrect hv hjw)

theorem fitO_ps_good (m : OMat) (r0 : Row) (t : OMat) (w : Nat)
    (hm : m = r0 :: t) (hrect : rectW w m) (hv : validM m) :
    ∀ p ∈ (Scaler.fitO m).scale.zip (Scaler.fitO m).minAdj,
      (∃ s, p.1 = some s ∧ s ≠ 0) ∧ (∃ mv, p.2 = some mv) := by
  have hmin : ∀ x ∈ (Scaler.fitO m).data_min, x.isSome :=
    fitO_param_isSome min m r0 t w hm hrect hv
  have hmax : ∀ x ∈ (Scaler.fitO m).data_max, x.isSome :=
    fitO_param_isSome max m r0 t w hm hrect hv
  have hscale : ∀ x ∈ (Scaler.fitO m).scale, ∃ s, x = some s ∧ s ≠ 0 := by
    intro x hx
    obtain ⟨mn, mx, hmn, hmx, hx'⟩ := mem_zipWith hx
    obtain ⟨a, ha⟩ := Option.isSome_iff_exists.mp (hmin mn hmn)
    obtain ⟨b, hb⟩ := Option.isSome_iff_exists.mp (hmax mx hmx)
    subst ha hb
    exact ⟨1 / handleZeros (b - a), hx', one_div_ne_zero (handleZeros_ne_zero _)⟩
  intro p hp
  obtain ⟨ps, pm, hps, hpm, hp'⟩ := mem_zipWith (by
    have : p ∈ List.zipWith Prod.mk (Scaler.fitO m).scale (Scaler.fitO m).minAdj := by
      rw [List.zip] at hp
      exact hp
    exact this)
  constructor
  · obtain ⟨s, hs, hs0⟩ := hscale ps hps
    exact ⟨s, by rw [hp', hs], by assumption⟩
  · obtain ⟨mn, sv, hmn, hsv, hpm'⟩ := mem_zipWith hpm
    obtain ⟨a, ha⟩ := Option.isSome_iff_exists.mp (hmin mn hmn)
    obtain ⟨s, hs, _⟩ := hscale sv hsv
    subst ha
    rw [hp', hpm', hs]
    exact ⟨0 - a * s, rfl⟩

theorem rowOp_roundtrip_row :
    ∀ (ps : List (Cell × Cell)) (r : Row), r.length = ps.length →
    (∀ x ∈ r, x.isSome) →
    (∀ p ∈ ps, (∃ s, p.1 = some s ∧ s ≠ 0) ∧ (∃ mv, p.2 = some mv)) →
    List.zipWith invEntry (List.zipWith trEntry r ps) ps = r := by
  intro ps
  induction ps with
  | nil =>
    intro r hlen _ _
    rw [List.length_nil, List.length_eq_zero] at hlen
    subst hlen
    rfl
  | cons p pt ih =>
    intro r hlen hv hp
    obtain ⟨p1, p2⟩ := p
    cases r with
    | nil => simp at hlen
    | cons x xt =>
      obtain ⟨xv, hx⟩ := Option.isSome_iff_exists.mp (hv x (by simp))
      obtain ⟨⟨s, hs, hs0⟩, ⟨mv, hmv⟩⟩ := hp (p1, p2) (by simp)
      have hs2 : p1 = some s := hs
      have hmv2 : p2 = some mv := hmv
      subst hs2 hmv2 hx
      have htail : List.zipWith invEntry (List.zipWith trEntry xt pt) pt = xt :=
        ih xt (by simpa using hlen) (fun z hz => hv z (List.mem_cons_of_mem _ hz))
          (fun q hq => hp q (List.mem_cons_of_mem _ hq))
      simp only [List.zipWith_cons_cons, htail]
      have hhead : invEntry (trEntry (some xv) (some s, some mv)) (some s, some mv) = some xv := by
        simp only [trEntry, invEntry]
        rw [add_sub_cancel_right, mul_div_cancel_right₀ xv hs0]
      rw [hhead]

theorem transformed_row_length (sc : Scaler) (w : Nat) (h1 : sc.data_min.length = w)
    (h2 : sc.data_max.length = w) (r : Row) (hr : r.length = w)
    (f : Cell → Cell × Cell → Cell) :
    (List.zipWith f r (sc.scale.zip sc.minAdj)).length = w := by
  rw [List.length_zipWith, scaler_ps_length sc w h1 h2, hr, min_self]

theorem bind_ok {α β : Type} (a : α) (f : α → Except Err β) :
    (Except.ok a >>= f) = f a := rfl

theorem bind_err {α β : Type} (e : Err) (f : α → Except Err β) :
    ((Except.error e : Except Err α) >>= f) = .error e := rfl

/-! ## Claim theorems -/

/-- C1: with delta mode on, for every frame `F` of length at least 2 (all
rows of one width, all cells numeric), `transform F` is the first-order
difference of `F`: it has exactly `F.length - 1` rows and satisfies
`F[1:] = F[:-1] + transform F` elementwise. -/
theorem transform_delta_difference (cfg : Config) (F : OMat) (w : Nat)
    (hd : cfg.model_delta = true) (hL : 2 ≤ F.length)
    (hrect : rectW w F) (hv : validM F) :
    (transform cfg F).length = F.length - 1 ∧
    F.drop 1 = addMat F.dropLast (transform cfg F) := by
  constructor
  · rw [transform, if_pos (by simp [hd])]
    exact length_delta F
  · rw [transform, if_pos (by simp [hd])]
    exact (addMat_dropLast_delta F w hrect hv).symm

theorem transform_delta_difference_witness :
    (transform { defaultConfig with model_delta := true }
        [[some 5], [some 2], [some 9], [some 1]]).length = 4 - 1 ∧
    ([[some (5:ℚ)], [some 2], [some 9], [some 1]] : OMat).drop 1 =
      addMat ([[some (5:ℚ)], [some 2], [some 9], [some 1]] : OMat).dropLast
        (transform { defaultConfig with model_delta := true }
          [[some 5], [some 2], [some 9], [some 1]]) :=
  transform_delta_difference { defaultConfig with model_delta := true }
    [[some 5], [some 2], [some 9], [some 1]] 1 rfl (by decide) (by decide) (by decide)

/-- C2: for every nonempty rectangular frame with no missing values,
normalizing with a scaler fit on that same frame (`fit=true`) and then
applying `inverse_normalize` with the resulting scaler returns the original
frame exactly: the scaler's stored affine mapping is the exact inverse of
the fitted [0, 1] range mapping (exact over ℚ, hence within any
floating-point tolerance). -/
theorem normalize_inverse_roundtrip (m : OMat) (w : Nat) (hne : m ≠ [])
    (hrect : rectW w m) (hv : validM m) :
    (normalize m none true >>= fun p => inverse_normalize p.1 p.2) = .ok m := by
  obtain ⟨r0, t, hm⟩ := List.exists_cons_of_ne_nil hne
  have hw0 : (m.headD []).length = w := by
    rw [hm]
    exact hrect r0 (by rw [hm]; exact List.mem_cons_self r0 t)
  set sc := Scaler.fitO m with hscdef
  have h1 : sc.data_min.length = w := by rw [hscdef, fitO_data_min_length, hw0]
  have h2 : sc.data_max.length = w := by rw [hscdef, fitO_data_max_length, hw0]
  have hwidth : sc.width = w := h1
  have hrows : ∀ r ∈ m, r.length = sc.width := fun r hr => by
    rw [hwidth]; exact hrect r hr
  set ps := sc.scale.zip sc.minAdj with hps
  set mt := m.map (fun r => List.zipWith trEntry r ps) with hmt
  have hmapM : m.mapM (rowOp trEntry sc) = .ok mt := mapM_rowOp_ok trEntry sc m hrows
  have hpsgood : ∀ p ∈ ps, (∃ s, p.1 = some s ∧ s ≠ 0) ∧ (∃ mv, p.2 = some mv) :=
    fitO_ps_good m r0 t w hm hrect hv
  have hrows2 : ∀ r ∈ mt, r.length = sc.width := by
    intro r hr
    obtain ⟨r1, hr1, hr'⟩ := List.mem_map.mp hr
    rw [← hr', hwidth]
    exact transformed_row_length sc w h1 h2 r1 (hrect r1 hr1) trEntry
  have hmapM2 : mt.mapM (rowOp invEntry sc) =
      .ok (mt.map (fun r => List.zipWith invEntry r ps)) :=
    mapM_rowOp_ok invEntry sc mt hrows2
  have hround : mt.map (fun r => List.zipWith invEntry r ps) = m := by
    rw [hmt, List.map_map]
    have hc : ∀ r ∈ m,
        ((fun r => List.zipWith invEntry r ps) ∘ (fun r => List.zipWith trEntry r ps)) r
          = id r := by
      intro r hr
      simp only [Function.comp_apply, id_eq]
      refine rowOp_roundtrip_row ps r ?_ (hv r hr) hpsgood
      rw [hrect r hr, hps, scaler_ps_length sc w h1 h2]
    rw [List.map_congr_left hc, List.map_id]
  have hnorm : normalize m none true = .ok (some sc, mt) := by
    rw [normalize, if_pos rfl]
    show Except.bind (scalerTransformFrame (some sc) m) _ = _
    have hstf : scalerTransformFrame (some sc) m = .ok mt := hmapM
    rw [hstf]
    rfl
  rw [hnorm]
  show inverse_normalize (some sc) mt = .ok m
  have hinv : inverse_normalize (some sc) mt = mt.mapM (rowOp invEntry sc) := rfl
  rw [hinv, hmapM2, hround]

theorem normalize_inverse_roundtrip_witness :
    (normalize [[some 0, some 5], [some 2, some 5], [some 4, some 11]] none true >>=
        fun p => inverse_normalize p.1 p.2) =
      .ok [[some (0:ℚ), some 5], [some 2, some 5], [some 4, some 11]] :=
  normalize_inverse_roundtrip [[some 0, some 5], [some 2, some 5], [some 4, some 11]] 2
    (by decide) (by decide) (by decide)

/-- C3: for a matrix of length `L`, `sequence_len = s`, `steps_ahead = k ≥ 1`
and any batch size, `get_tsg` produces exactly `L - s - k + 1` windows when
that quantity is positive (`s + k ≤ L`), and fails with the
insufficient-data error otherwise, before any predictor is invoked. -/
theorem get_tsg_window_count (cfg : Config) (df : OMat) (k bs : Nat) (hk : 1 ≤ k) :
    (cfg.sequence_len + k ≤ df.length →
      (get_tsg cfg df k bs).map List.length =
        .ok (df.length - cfg.sequence_len - k + 1)) ∧
    (df.length < cfg.sequence_len + k →
      get_tsg cfg df k bs = .error .insufficientData) := by
  constructor
  · intro h
    obtain ⟨ws, h1, h2⟩ := get_tsg_ok cfg df k bs hk h
    rw [h1, Except.map, h2]
  · intro h
    exact get_tsg_err cfg df k bs hk h

theorem get_tsg_window_count_witness :
    (get_tsg { defaultConfig with sequence_len := 6 }
        (List.replicate 19 [some 0, some 0]) 1 1).map List.length = .ok 13 :=
  (get_tsg_window_count { defaultConfig with sequence_len := 6 }
    (List.replicate 19 [some (0:ℚ), some 0]) 1 1 (by decide)).1 (by decide)

/-- C4: `predict` applies the stages in the spec's fixed order — repair
(interpolation) → transform → normalize(fit=false) → append `steps_ahead`
all-missing rows to the normalized matrix → windowing → predictor →
inverse_normalize → inverse_transform; in particular the padding rows are
appended after normalization and before windowing
(`predictSpec` is that composition, written from the spec's words). -/
theorem predict_pipeline_order (net : OMat → Row) (st : ModelState) (df : OMat) :
    predict net st df = predictSpec net st df := rfl

/-- C5: with delta mode on, for every rectangular frame of the trained width
with `L > sequence_len` rows (and a predictor emitting rows of the trained
width), `predict` succeeds and returns a matrix with exactly
`L - sequence_len` rows, independently of `steps_ahead`. -/
theorem predict_output_row_count (net : OMat → Row) (st : ModelState) (df : OMat)
    (w : Nat) (sc : Scaler)
    (hd : st.config.model_delta = true)
    (hk : 1 ≤ st.config.steps_ahead)
    (hsc : st.scaler = some sc)
    (hw1 : sc.data_min.length = w) (hw2 : sc.data_max.length = w)
    (hmult : st.config.multivariate = some w)
    (hrect : rectW w df)
    (hs : st.config.sequence_len < df.length)
    (hnet : ∀ win, (net win).length = w) :
    (predict net st df).map List.length = .ok (df.length - st.config.sequence_len) := by
  set df1 := if st.config.interpolate then interpolateFrame df else df with hdf1
  have hdf1len : df1.length = df.length := by
    rw [hdf1]
    split
    · exact length_interpolateFrame df
    · rfl
  have hdf1rect : rectW w df1 := by
    rw [hdf1]
    split
    · exact rectW_interpolateFrame df w hrect
    · exact hrect
  have htrans : transform st.config df1 = delta df1 := by
    rw [transform, if_pos (by rw [hd])]
  have htlen : (delta df1).length = df.length - 1 := by rw [length_delta, hdf1len]
  have htrect : rectW w (delta df1) := rectW_delta df1 w hdf1rect
  have hrows : ∀ r ∈ delta df1, r.length = sc.width := fun r hr => by
    rw [Scaler.width, hw1]
    exact htrect r hr
  set ps := sc.scale.zip sc.minAdj with hps
  set normv := (delta df1).map (fun r => List.zipWith trEntry r ps) with hnormv
  have hmapM : (delta df1).mapM (rowOp trEntry sc) = .ok normv :=
    mapM_rowOp_ok trEntry sc (delta df1) hrows
  have hnormlen : normv.length = df.length - 1 := by
    rw [hnormv, List.length_map, htlen]
  have hn : normalize (transform st.config df1) st.scaler false = .ok (some sc, normv) := by
    rw [htrans, hsc, normalize, if_neg Bool.false_ne_true]
    show Except.bind (scalerTransformFrame (some sc) (delta df1)) _ = _
    rw [show scalerTransformFrame (some sc) (delta df1)
          = (delta df1).mapM (rowOp trEntry sc) from rfl, hmapM]
    rfl
  have hgm : getMultivariate st.config = .ok w := by
    unfold getMultivariate
    rw [hmult]
  set padded := normv ++ List.replicate st.config.steps_ahead (List.replicate w none) with hpad
  have hpadlen : padded.length = df.length - 1 + st.config.steps_ahead := by
    rw [hpad, List.length_append, List.length_replicate, hnormlen]
  obtain ⟨ws, hws, hwslen⟩ :=
    get_tsg_ok st.config padded st.config.steps_ahead st.config.batch_size hk
      (by rw [hpadlen]; omega)
  have hwscount : ws.length = df.length - st.config.sequence_len := by
    rw [hwslen, hpadlen]
    omega
  set pred := ws.map (fun s => net s.1) with hpred
  have hpredlen : pred.length = df.length - st.config.sequence_len := by
    rw [hpred, List.length_map, hwscount]
  have hpredrows : ∀ r ∈ pred, r.length = sc.width := by
    intro r hr
    obtain ⟨win, hwin, hr'⟩ := List.mem_map.mp hr
    rw [← hr', Scaler.width, hw1]
    exact hnet win.1
  set denorm := pred.map (fun r => List.zipWith invEntry r ps) with hdenorm
  have hmapM2 : pred.mapM (rowOp invEntry sc) = .ok denorm :=
    mapM_rowOp_ok invEntry sc pred hpredrows
  have hdenormlen : denorm.length = df.length - st.config.sequence_len := by
    rw [hdenorm, List.length_map, hpredlen]
  have hinv : inverse_normalize (some sc) pred = .ok denorm := hmapM2
  have hfinal : (inverse_transform st.config df1 denorm).length
      = df.length - st.config.sequence_len := by
    rw [inverse_transform, if_pos (by rw [hd]), addMat, List.length_zipWith,
      List.length_drop, hdf1len, hdenormlen]
    omega
  have hgoal : predict net st df = .ok (inverse_transform st.config df1 denorm) := by
    simp only [predict, ← hdf1]
    rw [hn]
    simp only [bind_ok]
    rw [hgm]
    simp only [bind_ok]
    rw [← hpad, hws]
    simp only [bind_ok]
    rw [← hpred, hsc, hinv]
    simp only [bind_ok]
    rfl
  rw [hgoal, Except.map, hfinal]

theorem predict_output_row_count_witness :
    (predict (fun _ => [some 0])
        { config := { defaultConfig with
            model_delta := true, interpolate := false, sequence_len := 2,
            steps_ahead := 1, batch_size := 1, multivariate := some 1 },
          kerasBlob := some 0, scaler := some ⟨[some 0], [some 1]⟩,
          sampleData := none, metrics := [] }
        [[some 1], [some 2], [some 4], [some 7], [some 11]]).map List.length =
      .ok 3 :=
  predict_output_row_count (fun _ => [some 0])
    { config := { defaultConfig with
        model_delta := true, interpolate := false, sequence_len := 2,
        steps_ahead := 1, batch_size := 1, multivariate := some 1 },
      kerasBlob := some 0, scaler := some ⟨[some 0], [some 1]⟩,
      sampleData := none, metrics := [] }
    [[some 1], [some 2], [some 4], [some 7], [some 11]] 1 ⟨[some 0], [some 1]⟩
    rfl (by decide) rfl rfl rfl rfl (by decide) (by decide) (fun _ => rfl)

/-- C8: calling `predict` with a frame whose column count differs from the
multivariate width recorded at training time (to which the scaler was
fitted) fails with the dimension-mismatch error before the predictor is
invoked: the conclusion holds for every predictor `net`, which is never
applied. -/
theorem predict_width_mismatch (net : OMat → Row) (st : ModelState) (df : OMat)
    (wT wF : Nat) (sc : Scaler)
    (hsc : st.scaler = some sc)
    (hmult : st.config.multivariate = some wT)
    (htrained : sc.data_min.length = wT)
    (hrect : rectW wF df) (hL : 2 ≤ df.length) (hne : wF ≠ wT) :
    predict net st df = .error .dimensionMismatch := by
  set df1 := if st.config.interpolate then interpolateFrame df else df with hdf1
  have hdf1len : df1.length = df.length := by
    rw [hdf1]
    split
    · exact length_interpolateFrame df
    · rfl
  have hdf1rect : rectW wF df1 := by
    rw [hdf1]
    split
    · exact rectW_interpolateFrame df wF hrect
    · exact hrect
  have htlen : 1 ≤ (transform st.config df1).length := by
    rw [transform]
    split
    · rw [length_delta, hdf1len]; omega
    · rw [hdf1len]; omega
  have htrect : rectW wF (transform st.config df1) := by
    rw [transform]
    split
    · exact rectW_delta df1 wF hdf1rect
    · exact hdf1rect
  obtain ⟨r, rest, hcons⟩ :=
    List.exists_cons_of_ne_nil (List.ne_nil_of_length_pos (by omega :
      0 < (transform st.config df1).length))
  have hrlen : r.length ≠ sc.width := by
    rw [Scaler.width, htrained, htrect r (by rw [hcons]; exact List.mem_cons_self r rest)]
    exact hne
  have hmapErr : (r :: rest).mapM (rowOp trEntry sc) = .error .dimensionMismatch :=
    mapM_rowOp_err trEntry sc r rest hrlen
  have hn : normalize (transform st.config df1) st.scaler false
      = .error .dimensionMismatch := by
    rw [hsc, normalize, if_neg Bool.false_ne_true]
    show Except.bind (scalerTransformFrame (some sc) (transform st.config df1)) _ = _
    rw [show scalerTransformFrame (some sc) (transform st.config df1)
          = (transform st.config df1).mapM (rowOp trEntry sc) from rfl, hcons, hmapErr]
    rfl
  simp only [predict, ← hdf1]
  rw [hn]
  rfl

theorem predict_width_mismatch_witness :
    predict (fun _ => [some 0])
        { config := { defaultConfig with
            model_delta := true, interpolate := false, sequence_len := 2,
            steps_ahead := 1, batch_size := 1, multivariate := some 2 },
          kerasBlob := some 0, scaler := some ⟨[some 0, some 0], [some 1, some 1]⟩,
          sampleData := none, metrics := [] }
        [[some 1, some 1, some 1], [some 2, some 2, some 2], [some 3, some 3, some 3]] =
      .error .dimensionMismatch :=
  predict_width_mismatch (fun _ => [some 0])
    { config := { defaultConfig with
        model_delta := true, interpolate := false, sequence_len := 2,
        steps_ahead := 1, batch_size := 1, multivariate := some 2 },
      kerasBlob := some 0, scaler := some ⟨[some 0, some 0], [some 1, some 1]⟩,
      sampleData := none, metrics := [] }
    [[some 1, some 1, some 1], [some 2, some 2, some 2], [some 3, some 3, some 3]]
    2 3 ⟨[some 0, some 0], [some 1, some 1]⟩
    rfl rfl rfl (by decide) (by decide) (by decide)

/-- C6: loading an artifact whose metrics member is absent or malformed
succeeds — the failure is only logged and the metrics map afterwards is the
one the model already held (empty for a freshly constructed model) — while
the keras-model and scaler members remain mandatory: their absence fails the
load.  (Stated for artifacts without a sample-data section, so the post-load
warm prediction is skipped.) -/
theorem load_metrics_best_effort (net : Nat → OMat → Row) (zip : ZipFile)
    (st : ModelState) (c : Config)
    (hc : zip.configMember = some c) (hcs : c.sample_data = false)
    (hsd : st.sampleData = none) (hmm : zip.metricsMember = none) :
    (∀ b sc, zip.modelMember = some b → zip.scalerMember = some sc →
      load net zip st =
        .ok { config := c, kerasBlob := some b, scaler := some sc,
              sampleData := none, metrics := st.metrics }) ∧
    (zip.modelMember = none → load net zip st = .error .missingModel) ∧
    (∀ b, zip.modelMember = some b → zip.scalerMember = none →
      load net zip st = .error .missingScaler) := by
  refine ⟨?_, ?_, ?_⟩
  · intro b sc hb hsc
    rw [load, hc, hb, hsc]
    simp [hcs, hsd, hmm]
    rfl
  · intro hb
    rw [load, hc, hb]
    rfl
  · intro b hb hsc
    rw [load, hc, hb, hsc]
    rfl

theorem load_metrics_best_effort_witness :
    load (fun _ _ => []) ⟨some defaultConfig, some 7, some ⟨[some 0], [some 1]⟩, none, none⟩
        freshModel =
      .ok { config := defaultConfig, kerasBlob := some 7,
            scaler := some ⟨[some 0], [some 1]⟩, sampleData := none, metrics := [] } :=
  (load_metrics_best_effort (fun _ _ => [])
    ⟨some defaultConfig, some 7, some ⟨[some 0], [some 1]⟩, none, none⟩
    freshModel defaultConfig rfl rfl rfl rfl).1 7 ⟨[some 0], [some 1]⟩ rfl rfl

/-- C9: the claim says normalization is never re-fit outside training; the
code violates it in `eval` (mods_model.py:804), which calls `normalize`
without `fit=False`, so Python's default `fit=True` applies and the model's
scaler is re-fitted to the evaluation frame.  Concretely: a model whose
scaler was fitted with column range [0, 1] evaluates a frame with column
range [0, 10], and afterwards holds the re-fitted parameters [0, 10]. -/
theorem eval_refits_scaler :
    (eval (fun _ => []) stEvalDemo [[some 0], [some 10]]).map (fun r => r.2.scaler) =
      .ok (some ⟨[some 0], [some 10]⟩) ∧
    stEvalDemo.scaler = some ⟨[some 0], [some 1]⟩ ∧
    (⟨[some 0], [some 10]⟩ : Scaler) ≠ ⟨[some 0], [some 1]⟩ := by
  refine ⟨by rfl, rfl, by decide⟩

/-- C7 counterexample: the claim "a None or absent value falls back to the
value currently stored in the configuration and never resets it to a
hard-coded default" is false for absent values.  An omitted `sequence_len`
argument arrives, by Python's default-argument mechanism
(mods_model.py:421), as the module constant `cfg.sequence_len = 6`, and the
merge stores it, resetting a stored value of 12. -/
theorem trainMerge_absent_resets_counterexample :
    (trainMergeConfig
        ⟨some cfg_sequence_len, none, none, none, none, none, none, none, none, none, none, none⟩
        { defaultConfig with sequence_len := 12 } 2).sequence_len = cfg_sequence_len ∧
    ({ defaultConfig with sequence_len := 12 } : Config).sequence_len = 12 ∧
    cfg_sequence_len ≠ 12 := by
  refine ⟨rfl, rfl, by decide⟩

/-- C7 amended: the merge of `train`'s hyperparameters with the stored
configuration satisfies: a `None` argument falls back to the stored value,
any other argument overrides and is stored (`Option.getD`), and
`multivariate` is set to the training frame's column count.  An argument the
caller omits is not `None`: Python's default-argument mechanism fills it
with the `mods.config` module constant, which therefore resets the stored
value. -/
theorem trainMergeConfig_merge_semantics (a : TrainArgs) (c : Config) (w : Nat) :
    (trainMergeConfig a c w).multivariate = some w ∧
    (trainMergeConfig a c w).sequence_len = a.sequence_len.getD c.sequence_len ∧
    (trainMergeConfig a c w).model_delta = a.model_delta.getD c.model_delta ∧
    (trainMergeConfig a c w).interpolate = a.interpolate.getD c.interpolate ∧
    (trainMergeConfig a c w).model_type = a.model_type.getD c.model_type ∧
    (trainMergeConfig a c w).epochs = a.num_epochs.getD c.epochs ∧
    (trainMergeConfig a c w).epochs_patience = a.epochs_patience.getD c.epochs_patience ∧
    (trainMergeConfig a c w).blocks = a.blocks.getD c.blocks ∧
    (trainMergeConfig a c w).stacked_blocks = a.stacked_blocks.getD c.stacked_blocks ∧
    (trainMergeConfig a c w).steps_ahead = a.steps_ahead.getD c.steps_ahead ∧
    (trainMergeConfig a c w).batch_size = a.batch_size.getD c.batch_size ∧
    (trainMergeConfig a c w).batch_normalization = a.batch_normalization.getD c.batch_normalization ∧
    (trainMergeConfig a c w).dropout_rate = a.dropout_rate.getD c.dropout_rate := by
  obtain ⟨s, d, i, t, e, p, bl, sb, sa, bs, bn, dr⟩ := a
  refine ⟨rfl, ?_, ?_, ?_, ?_, ?_, ?_, ?_, ?_, ?_, ?_, ?_, ?_⟩ <;>
    first
    | (cases s <;> rfl)
    | (cases d <;> rfl)
    | (cases i <;> rfl)
    | (cases t <;> rfl)
    | (cases e <;> rfl)
    | (cases p <;> rfl)
    | (cases bl <;> rfl)
    | (cases sb <;> rfl)
    | (cases sa <;> rfl)
    | (cases bs <;> rfl)
    | (cases bn <;> rfl)
    | (cases dr <;> rfl)

/-- C10 counterexample: the repair step is not side-effect-free on the
caller's frame in `train` — `replace('None', 0, inplace=True)` mutates the
caller's object, so after `train` a frame that held a sentinel holds 0. -/
theorem trainRepair_mutates_counterexample :
    trainCallerFrameAfter false [[Entry.sentinel]] ≠ [[Entry.sentinel]] := by
  decide

/-- C10 amended: repair's result has the same shape as its input and
`predict` is side-effect-free on the caller's frame, but `train`'s repair
operates in place: after `train` the caller's frame holds the repaired
values (sentinels replaced by zero and, when the interpolate flag is set,
gaps interpolated), not the original ones. -/
theorem repair_shape_predict_pure (b : Bool) (df : EMat) (dfO : OMat) :
    shape (trainCallerFrameAfter b df) = shape df ∧
    shape (interpolateFrame dfO) = shape dfO ∧
    predictCallerFrameAfter dfO = dfO := by
  refine ⟨?_, shape_interpolateFrame dfO, rfl⟩
  cases b with
  | false =>
    rw [trainCallerFrameAfter]
    simpa [replaceSentinel] using shape_map_map _ df
  | true =>
    rw [trainCallerFrameAfter]
    simp only [if_pos]
    rw [shape_map_map, shape_interpolateFrame, shape_map_map]
    simpa [replaceSentinel] using shape_map_map (fun e => match e with | .sentinel => Entry.val 0 | e => e) df

end MODS
